import Mathlib

/-!
Verification of the arrow-rs physical-type codec layer.

Shallow embedding of:
  * `parquet-variant/src/utils.rs` (overflow-checked slicing, fallible range
    binary search) in namespace `Variant`;
  * `parquet/src/data_type.rs` (Int96, ByteArray, FixedLenByteArray, the
    `ParquetValueType` decode/skip implementations) in namespace `Parquet`.

Machine integers are modelled as `Nat`/`Int` with explicit wrap-around where
the source uses wrapping arithmetic.  Byte buffers are `List Nat` (each entry
a byte value).  Rust panics (assertion failures, `expect`, slice-index panics
and debug-mode usize underflow) are modelled as an explicit `panic` outcome,
distinct from recoverable `Err` results.
-/

namespace Variant

/-- Largest value of the platform address type; we model the 64-bit target. -/
def USIZE_MAX : Nat := 2 ^ 64 - 1

/-- Model of `arrow_schema::ArrowError` restricted to the single variant this
code constructs (`InvalidArgumentError`), carrying the formatted message. -/
inductive ArrowError where
  | invalidArgumentError (msg : String)
deriving DecidableEq

/-- Source: `overflow_error` in `parquet-variant/src/utils.rs`. -/
def overflow_error (msg : String) : ArrowError :=
  .invalidArgumentError ("Integer overflow computing " ++ msg)

/-- The error value `slice_from_slice` builds when the requested range is not
inside the buffer (Rust: `Tried to extract byte(s) {index:?} from {}-byte buffer`). -/
def out_of_bounds_error (rstart rstop len : Nat) : ArrowError :=
  .invalidArgumentError ("Tried to extract byte(s) " ++ toString rstart ++ ".." ++
    toString rstop ++ " from " ++ toString len ++ "-byte buffer")

/-- Source: `slice_from_slice` (`bytes.get(index).ok_or_else(...)`) for a
`Range<usize>` index: Rust's `slice.get(a..b)` is `Some` exactly when
`a <= b && b <= len`. -/
def slice_from_slice (bytes : List Nat) (rstart rstop : Nat) :
    Except ArrowError (List Nat) :=
  if rstart ≤ rstop ∧ rstop ≤ bytes.length then
    .ok ((bytes.drop rstart).take (rstop - rstart))
  else
    .error (out_of_bounds_error rstart rstop bytes.length)

/-- Rust's `usize::checked_add`. -/
def checked_add (a b : Nat) : Option Nat :=
  if a + b ≤ USIZE_MAX then some (a + b) else none

/-- Source: `slice_from_slice_at_offset` in `parquet-variant/src/utils.rs`. -/
def slice_from_slice_at_offset (bytes : List Nat) (base_offset rstart rstop : Nat) :
    Except ArrowError (List Nat) :=
  match checked_add base_offset rstart with
  | none => .error (overflow_error "slice start")
  | some start_byte =>
    match checked_add base_offset rstop with
    | none => .error (overflow_error "slice end")
    | some end_byte => slice_from_slice bytes start_byte end_byte

/-- Source: `try_binary_search_range_by` in `parquet-variant/src/utils.rs`.
The Rust `while start < end` loop with `mid = start + (end - start) / 2`;
the three `key.cmp(target)` arms Equal / Greater / Less are rendered as
`key = target` / `target < key` / otherwise. -/
def try_binary_search_range_by {K : Type} [LinearOrder K] (start stop : Nat)
    (target : K) (key_extractor : Nat → Option K) : Option (Except Nat Nat) :=
  if h : start < stop then
    match key_extractor (start + (stop - start) / 2) with
    | none => none
    | some key =>
      if key = target then some (.ok (start + (stop - start) / 2))
      else if target < key then
        try_binary_search_range_by start (start + (stop - start) / 2) target key_extractor
      else
        try_binary_search_range_by (start + (stop - start) / 2 + 1) stop target key_extractor
  else
    some (.error start)
termination_by stop - start
decreasing_by
  · have h2 : (stop - start) / 2 < stop - start := Nat.div_lt_self (by omega) (by omega)
    omega
  · omega

end Variant

namespace Parquet

/-- Wrap an integer to signed 64-bit two's complement (`i64` wrapping). -/
def wrap64 (x : Int) : Int := (x + 2 ^ 63) % 2 ^ 64 - 2 ^ 63

/-- Rust `u32 as i32` cast (reinterpret the 32-bit pattern as signed). -/
def u32_to_i32 (w : Nat) : Int := if w < 2 ^ 31 then (w : Int) else (w : Int) - 2 ^ 32

/-- A 64-bit unsigned quantity reinterpreted as signed two's complement
(Rust `usize as i64` / a packed `u64` bit pattern read as `i64`). -/
def u64_to_i64 (n : Nat) : Int := if n < 2 ^ 63 then (n : Int) else (n : Int) - 2 ^ 64

/-- Source constant `JULIAN_DAY_OF_EPOCH`. -/
def JULIAN_DAY_OF_EPOCH : Int := 2440588

/-- Source constant `SECONDS_IN_DAY`. -/
def SECONDS_IN_DAY : Int := 86400

/-- Source constant `MILLISECONDS_IN_DAY = 86_400 * 1_000`. -/
def MILLISECONDS_IN_DAY : Int := 86400000

/-- Source constant `MICROSECONDS_IN_DAY = 86_400 * 1_000_000`. -/
def MICROSECONDS_IN_DAY : Int := 86400000000

/-- Source constant `NANOSECONDS_IN_DAY = 86_400 * 1_000_000_000`. -/
def NANOSECONDS_IN_DAY : Int := 86400000000000

/-- `Int96 { value: [u32; 3] }`: fields model `value[0]`, `value[1]`, `value[2]`. -/
structure Int96 where
  value0 : Nat
  value1 : Nat
  value2 : Nat
deriving DecidableEq

/-- `Int96::get_days`: `self.data()[2] as i32`. -/
def Int96.get_days (v : Int96) : Int := u32_to_i32 v.value2

/-- `Int96::get_nanos`: `((self.data()[1] as i64) << 32) + self.data()[0] as i64`.
Rust `<<` on `i64` discards shifted-out bits, hence the `wrap64`; the final `+`
cannot overflow for `u32` words. -/
def Int96.get_nanos (v : Int96) : Int := wrap64 ((v.value1 : Int) * 2 ^ 32) + (v.value0 : Int)

/-- `Int96::to_seconds`: `(day as i64 - JULIAN_DAY_OF_EPOCH)
.wrapping_mul(SECONDS_IN_DAY).wrapping_add(nanos / 1_000_000_000)`
(`/` on `i64` truncates toward zero: `Int.tdiv`). -/
def Int96.to_seconds (v : Int96) : Int :=
  wrap64 (wrap64 ((v.get_days - JULIAN_DAY_OF_EPOCH) * SECONDS_IN_DAY) +
    Int.tdiv v.get_nanos 1000000000)

/-- `Int96::to_millis`. -/
def Int96.to_millis (v : Int96) : Int :=
  wrap64 (wrap64 ((v.get_days - JULIAN_DAY_OF_EPOCH) * MILLISECONDS_IN_DAY) +
    Int.tdiv v.get_nanos 1000000)

/-- `Int96::to_micros`. -/
def Int96.to_micros (v : Int96) : Int :=
  wrap64 (wrap64 ((v.get_days - JULIAN_DAY_OF_EPOCH) * MICROSECONDS_IN_DAY) +
    Int.tdiv v.get_nanos 1000)

/-- `Int96::to_nanos`. -/
def Int96.to_nanos (v : Int96) : Int :=
  wrap64 (wrap64 ((v.get_days - JULIAN_DAY_OF_EPOCH) * NANOSECONDS_IN_DAY) + v.get_nanos)

/-- `Ord for Int96`: compare days, then nanos on equal days. -/
def Int96.cmp (a b : Int96) : Ordering :=
  match compare a.get_days b.get_days with
  | .eq => compare a.get_nanos b.get_nanos
  | o => o

/-- `ByteArray { data: Option<Bytes> }`: an optional shared byte buffer. -/
structure ByteArray where
  data : Option (List Nat)
deriving DecidableEq

/-- `ByteArray::len`: `assert!(self.data.is_some())` then the buffer length;
`none` models the assertion panic on an unset value. -/
def ByteArray.len (b : ByteArray) : Option Nat := b.data.map List.length

/-- `ByteArray::is_empty`: `self.len() == 0` (panics, i.e. `none`, when unset). -/
def ByteArray.is_empty (b : ByteArray) : Option Bool := b.len.map (· == 0)

/-- `ByteArray::data()`: `expect("set_data should have been called")`;
`none` models the panic on an unset value. -/
def ByteArray.get_data (b : ByteArray) : Option (List Nat) := b.data

/-- `HeapSize for ByteArray`: `self.data.as_ref().map(|data| data.len()).unwrap_or(0)`. -/
def ByteArray.heap_size (b : ByteArray) : Nat := (b.data.map List.length).getD 0

/-- `PartialEq for ByteArray`: byte-content equality of set buffers,
unset equals unset, set never equals unset. -/
def ByteArray.eq (a b : ByteArray) : Bool :=
  match a.data, b.data with
  | some d1, some d2 => d1 == d2
  | none, none => true
  | _, _ => false

/-- Lexicographic ordering of byte slices (Rust's `Ord for [u8]`). -/
def compareBytes : List Nat → List Nat → Ordering
  | [], [] => .eq
  | [], _ :: _ => .lt
  | _ :: _, [] => .gt
  | x :: xs, y :: ys =>
    match compare x y with
    | .eq => compareBytes xs ys
    | o => o

/-- `PartialOrd for ByteArray`: nulls (unset) first, then byte content. -/
def ByteArray.partial_cmp (a b : ByteArray) : Option Ordering :=
  match a.data, b.data with
  | none, none => some .eq
  | none, some _ => some .lt
  | some _, none => some .gt
  | some d1, some d2 => some (compareBytes d1 d2)

/-- `FixedLenByteArray(ByteArray)`: newtype wrapper, identical storage. -/
structure FixedLenByteArray where
  inner : ByteArray
deriving DecidableEq

/-- The default `ParquetValueType::variable_length_bytes`: `None` for every
implementation that does not override it. -/
def variable_length_bytes_default (α : Type) (_ : List α) : Option Int := none

/-- `Int96` does not override `variable_length_bytes`: the trait default applies. -/
def Int96.variable_length_bytes : List Int96 → Option Int :=
  variable_length_bytes_default Int96

/-- `FixedLenByteArray` does not override `variable_length_bytes` in its
`ParquetValueType` impl: the trait default applies. -/
def FixedLenByteArray.variable_length_bytes : List FixedLenByteArray → Option Int :=
  variable_length_bytes_default FixedLenByteArray

/-- The iterator `values.iter().map(|x| x.len() as i64)`: `x.len()` asserts
each visited value is set, so `none` models that panic; the `usize as i64`
cast is `u64_to_i64`. -/
def vlb_lens : List ByteArray → Option (List Int)
  | [] => some []
  | v :: vs =>
    match v.data with
    | none => none
    | some d => (vlb_lens vs).map (fun ls => u64_to_i64 d.length :: ls)

/-- `ByteArray`'s override: `Some(values.iter().map(|x| x.len() as i64).sum())`.
The outer `none` models the `len()` panic on an unset value; the `i64` sum is
carried exactly in `Int`. -/
def ByteArray.variable_length_bytes (values : List ByteArray) : Option (Option Int) :=
  (vlb_lens values).map (fun ls => some ls.sum)

/-- Modelled from the spec: the bit-packed boolean reader held by the cursor
(`BitReader` in `util/bit_util.rs` is not part of the given sources).  Booleans
are bit-packed, 1 bit per value, LSB-first within each byte; the reader keeps
its buffer and the number of bits already consumed. -/
structure BitReader where
  data : List Nat
  bit_offset : Nat
deriving DecidableEq

/-- Bits still available to the reader. -/
def BitReader.remaining_bits (r : BitReader) : Nat := 8 * r.data.length - r.bit_offset

/-- Modelled from the spec: bit `i` of the stream, LSB-first within each byte. -/
def BitReader.get_bit (r : BitReader) (i : Nat) : Bool :=
  r.data.getD (i / 8) 0 / 2 ^ (i % 8) % 2 == 1

/-- Modelled from the spec: `BitReader::get_batch` at 1 bit per value reads
`min(batch.len(), remaining bits)` booleans, advances, and returns the values
read, their number, and the advanced reader. -/
def BitReader.get_batch (r : BitReader) (n : Nat) : List Bool × Nat × BitReader :=
  let m := min n r.remaining_bits
  ((List.range m).map (fun j => r.get_bit (r.bit_offset + j)), m,
    { r with bit_offset := r.bit_offset + m })

/-- Modelled from the spec: `BitReader::skip` at 1 bit per value. -/
def BitReader.skip (r : BitReader) (n : Nat) : Nat × BitReader :=
  let m := min n r.remaining_bits
  (m, { r with bit_offset := r.bit_offset + m })

/-- Modelled from the spec: the crate error type (`ParquetError`), restricted to
the constructors this code builds via `eof_err!` (UnexpectedEof) and
`general_err!`. -/
inductive ParquetError where
  | eof (msg : String)
  | general (msg : String)
deriving DecidableEq

/-- Modelled from the spec: the decode cursor `PlainDecoderDetails`
(`encodings/decoding.rs` is not part of the given sources): an optional source
buffer, a byte position, a remaining-value count, the configured element byte
length for FIXED_LEN_BYTE_ARRAY (an `i32`), and the bit reader used for
booleans. -/
structure PlainDecoderDetails where
  data : Option (List Nat)
  start : Nat
  num_values : Nat
  type_length : Int
  bit_reader : Option BitReader
deriving DecidableEq

/-- Outcome of a decode/skip call: `ok`/`err` carry the cursor as the call
leaves it (the Rust code mutates it through `&mut`); `panic` models a Rust
panic (failed assertion, `expect` on `None`, out-of-range `Bytes::slice`, or
debug-mode usize underflow). -/
inductive DcResult (α : Type) where
  | ok : α → PlainDecoderDetails → DcResult α
  | err : ParquetError → PlainDecoderDetails → DcResult α
  | panic : DcResult α
deriving DecidableEq

/-- Little-endian `u32` at `pos` (`u32::from_le_bytes` on an in-bounds 4-byte
slice; buffer entries are byte values). -/
def readU32LE (bytes : List Nat) (pos : Nat) : Nat :=
  bytes.getD pos 0 + 256 * bytes.getD (pos + 1) 0 +
    65536 * bytes.getD (pos + 2) 0 + 16777216 * bytes.getD (pos + 3) 0

/-- `decode` from the `impl_from_raw!` macro (i32/i64/f32/f64), `sz` standing
for `std::mem::size_of::<Self>()`.  `ok` carries the raw bytes copied into the
output buffer and the count.  `data.len() - decoder.start` is a usize
subtraction: underflow is modelled as a panic. -/
def decode_fixed (sz : Nat) (buffer_len : Nat) (decoder : PlainDecoderDetails) :
    DcResult (List Nat × Nat) :=
  match decoder.data with
  | none => .panic
  | some data =>
    let num_values := min buffer_len decoder.num_values
    if decoder.start > data.length then .panic
    else
      let bytes_left := data.length - decoder.start
      let bytes_to_decode := sz * num_values
      if bytes_left < bytes_to_decode then
        .err (.eof "Not enough bytes to decode") decoder
      else
        .ok ((data.drop decoder.start).take bytes_to_decode, num_values)
          { decoder with
            start := decoder.start + bytes_to_decode,
            num_values := decoder.num_values - num_values }

/-- `skip` from the `impl_from_raw!` macro (i32/i64/f32/f64). -/
def skip_fixed (sz : Nat) (decoder : PlainDecoderDetails) (num : Nat) : DcResult Nat :=
  match decoder.data with
  | none => .panic
  | some data =>
    let num_values := min num decoder.num_values
    if decoder.start > data.length then .panic
    else
      let bytes_left := data.length - decoder.start
      let bytes_to_skip := sz * num_values
      if bytes_left < bytes_to_skip then
        .err (.eof "Not enough bytes to skip") decoder
      else
        .ok num_values
          { decoder with
            start := decoder.start + bytes_to_skip,
            num_values := decoder.num_values - num_values }

/-- The parse loop of `Int96::decode`: `n` values of three little-endian `u32`
words each, starting at byte `pos`. -/
def parse_int96 (bytes : List Nat) (pos : Nat) : Nat → List Int96
  | 0 => []
  | n + 1 =>
    { value0 := readU32LE bytes pos, value1 := readU32LE bytes (pos + 4),
      value2 := readU32LE bytes (pos + 8) } :: parse_int96 bytes (pos + 12) n

/-- `Int96::decode` (`ParquetValueType`): bulk bounds check of `12 * n` bytes
up front, then per-value word parsing. -/
def Int96.decode (buffer_len : Nat) (decoder : PlainDecoderDetails) :
    DcResult (List Int96 × Nat) :=
  match decoder.data with
  | none => .panic
  | some data =>
    let num_values := min buffer_len decoder.num_values
    if decoder.start > data.length then .panic
    else if data.length - decoder.start < 12 * num_values then
      .err (.eof "Not enough bytes to decode") decoder
    else
      .ok (parse_int96 data decoder.start num_values, num_values)
        { decoder with
          start := decoder.start + 12 * num_values,
          num_values := decoder.num_values - num_values }

/-- `Int96::skip` (`ParquetValueType`). -/
def Int96.skip (decoder : PlainDecoderDetails) (num : Nat) : DcResult Nat :=
  match decoder.data with
  | none => .panic
  | some data =>
    let num_values := min num decoder.num_values
    if decoder.start > data.length then .panic
    else if data.length - decoder.start < 12 * num_values then
      .err (.eof "Not enough bytes to skip") decoder
    else
      .ok num_values
        { decoder with
          start := decoder.start + 12 * num_values,
          num_values := decoder.num_values - num_values }

/-- Result of a per-value decode/skip loop over one batch: the payload and the
final byte position, or the position at which an `Err` return interrupted the
loop, or a panic. -/
inductive LoopRes (α : Type) where
  | ok : α → Nat → LoopRes α
  | err : ParquetError → Nat → LoopRes α
  | panic : LoopRes α
deriving DecidableEq

/-- The per-value loop of `ByteArray::decode`: read the 4-byte length word
(`Bytes::slice(start..)` panics when `start > len`, and `read_num_bytes`
asserts 4 bytes are available), advance `start` past it, bounds-check the
value bytes (an `Err` return leaves `start` already moved past the length
word), then take the value bytes and advance. -/
def byte_array_decode_loop (data : List Nat) (start : Nat) :
    Nat → LoopRes (List (List Nat))
  | 0 => .ok [] start
  | n + 1 =>
    if start > data.length then .panic
    else if data.length - start < 4 then .panic
    else
      let len := readU32LE data start
      if data.length < start + 4 + len then
        .err (.eof "Not enough bytes to decode") (start + 4)
      else
        match byte_array_decode_loop data (start + 4 + len) n with
        | .ok vs fin => .ok (((data.drop (start + 4)).take len) :: vs) fin
        | .err e fin => .err e fin
        | .panic => .panic

/-- `ByteArray::decode` (`ParquetValueType`): per-value loop; the
remaining-value count is decremented only after the whole loop succeeds. -/
def ByteArray.decode (buffer_len : Nat) (decoder : PlainDecoderDetails) :
    DcResult (List (List Nat) × Nat) :=
  match decoder.data with
  | none => .panic
  | some data =>
    let num_values := min buffer_len decoder.num_values
    match byte_array_decode_loop data decoder.start num_values with
    | .ok vs fin => .ok (vs, num_values)
        { decoder with start := fin, num_values := decoder.num_values - num_values }
    | .err e fin => .err e { decoder with start := fin }
    | .panic => .panic

/-- The per-value loop of `ByteArray::skip`: read each 4-byte length word and
advance `start` by `4 + len`; there is no bounds check on the value bytes. -/
def byte_array_skip_loop (data : List Nat) (start : Nat) : Nat → LoopRes Unit
  | 0 => .ok () start
  | n + 1 =>
    if start > data.length then .panic
    else if data.length - start < 4 then .panic
    else byte_array_skip_loop data (start + 4 + readU32LE data start) n

/-- `ByteArray::skip` (`ParquetValueType`). -/
def ByteArray.skip (decoder : PlainDecoderDetails) (num : Nat) : DcResult Nat :=
  match decoder.data with
  | none => .panic
  | some data =>
    let num_values := min num decoder.num_values
    match byte_array_skip_loop data decoder.start num_values with
    | .ok _ fin => .ok num_values
        { decoder with start := fin, num_values := decoder.num_values - num_values }
    | .err e fin => .err e { decoder with start := fin }
    | .panic => .panic

/-- The per-value loop of `FixedLenByteArray::decode`: bounds-check `len`
bytes (`Err` before moving `start` for the failing value), take them, advance. -/
def flba_decode_loop (data : List Nat) (len : Nat) (start : Nat) :
    Nat → LoopRes (List (List Nat))
  | 0 => .ok [] start
  | n + 1 =>
    if data.length < start + len then .err (.eof "Not enough bytes to decode") start
    else
      match flba_decode_loop data len (start + len) n with
      | .ok vs fin => .ok (((data.drop start).take len) :: vs) fin
      | .err e fin => .err e fin
      | .panic => .panic

/-- `FixedLenByteArray::decode` (`ParquetValueType`): asserts
`decoder.type_length > 0` on entry (`panic` when it is not), then the
per-value loop with `len = type_length as usize`. -/
def FixedLenByteArray.decode (buffer_len : Nat) (decoder : PlainDecoderDetails) :
    DcResult (List (List Nat) × Nat) :=
  if decoder.type_length ≤ 0 then .panic
  else
    match decoder.data with
    | none => .panic
    | some data =>
      let num_values := min buffer_len decoder.num_values
      match flba_decode_loop data decoder.type_length.toNat decoder.start num_values with
      | .ok vs fin => .ok (vs, num_values)
          { decoder with start := fin, num_values := decoder.num_values - num_values }
      | .err e fin => .err e { decoder with start := fin }
      | .panic => .panic

/-- The per-value loop of `FixedLenByteArray::skip`. -/
def flba_skip_loop (data : List Nat) (len : Nat) (start : Nat) : Nat → LoopRes Unit
  | 0 => .ok () start
  | n + 1 =>
    if data.length < start + len then .err (.eof "Not enough bytes to skip") start
    else flba_skip_loop data len (start + len) n

/-- `FixedLenByteArray::skip` (`ParquetValueType`): asserts
`decoder.type_length > 0` on entry. -/
def FixedLenByteArray.skip (decoder : PlainDecoderDetails) (num : Nat) : DcResult Nat :=
  if decoder.type_length ≤ 0 then .panic
  else
    match decoder.data with
    | none => .panic
    | some data =>
      let num_values := min num decoder.num_values
      match flba_skip_loop data decoder.type_length.toNat decoder.start num_values with
      | .ok _ fin => .ok num_values
          { decoder with start := fin, num_values := decoder.num_values - num_values }
      | .err e fin => .err e { decoder with start := fin }
      | .panic => .panic

/-- `bool::decode` (`ParquetValueType`): unwraps the bit reader (`panic` when
unset), reads `min(buffer.len(), num_values)` bit-packed values, and
decrements the remaining count by the number actually read. -/
def bool_decode (buffer_len : Nat) (decoder : PlainDecoderDetails) :
    DcResult (List Bool × Nat) :=
  match decoder.bit_reader with
  | none => .panic
  | some r =>
    let num_values := min buffer_len decoder.num_values
    let res := r.get_batch num_values
    .ok (res.1, res.2.1)
      { decoder with bit_reader := some res.2.2,
                     num_values := decoder.num_values - res.2.1 }

/-- `bool::skip` (`ParquetValueType`). -/
def bool_skip (decoder : PlainDecoderDetails) (num : Nat) : DcResult Nat :=
  match decoder.bit_reader with
  | none => .panic
  | some r =>
    let num_values := min num decoder.num_values
    let res := r.skip num_values
    .ok res.1
      { decoder with bit_reader := some res.2,
                     num_values := decoder.num_values - res.1 }

/-- The 64-bit nanoseconds-in-day quantity of an `Int96` as the specification
describes it: packed little-endian across words 0 and 1 (word 1 high, word 0
low) and read as a signed `i64`. -/
def Int96.nanos_packed (v : Int96) : Int := u64_to_i64 (v.value1 * 2 ^ 32 + v.value0)

end Parquet

/-! ## Helper lemmas -/

theorem Parquet.wrap64_add_mul (a k : Int) :
    Parquet.wrap64 (a + 2 ^ 64 * k) = Parquet.wrap64 a := by
  unfold Parquet.wrap64
  have h : a + 2 ^ 64 * k + 2 ^ 63 = a + 2 ^ 63 + 2 ^ 64 * k := by ring
  rw [h, Int.add_mul_emod_self_left]

theorem Parquet.wrap64_wrap_add (a b : Int) :
    Parquet.wrap64 (Parquet.wrap64 a + b) = Parquet.wrap64 (a + b) := by
  have h : Parquet.wrap64 a = a + 2 ^ 64 * (-((a + 2 ^ 63) / 2 ^ 64)) := by
    unfold Parquet.wrap64
    rw [Int.emod_def]
    ring
  rw [h]
  have h2 : a + 2 ^ 64 * (-((a + 2 ^ 63) / 2 ^ 64)) + b =
      a + b + 2 ^ 64 * (-((a + 2 ^ 63) / 2 ^ 64)) := by ring
  rw [h2, Parquet.wrap64_add_mul]

theorem Parquet.get_nanos_eq_packed (v : Parquet.Int96)
    (h0 : v.value0 < 2 ^ 32) (h1 : v.value1 < 2 ^ 32) :
    v.get_nanos = v.nanos_packed := by
  simp only [Parquet.Int96.get_nanos, Parquet.Int96.nanos_packed, Parquet.wrap64,
    Parquet.u64_to_i64]
  split_ifs <;> push_cast <;> omega

theorem Parquet.u32_to_i32_inj {x y : Nat} (hx : x < 2 ^ 32) (hy : y < 2 ^ 32)
    (h : Parquet.u32_to_i32 x = Parquet.u32_to_i32 y) : x = y := by
  unfold Parquet.u32_to_i32 at h
  split_ifs at h <;> omega

theorem Parquet.compareBytes_eq_iff : ∀ xs ys : List Nat,
    Parquet.compareBytes xs ys = .eq ↔ xs = ys := by
  intro xs
  induction xs with
  | nil =>
    intro ys
    cases ys with
    | nil => simp [Parquet.compareBytes]
    | cons y ys => simp [Parquet.compareBytes]
  | cons x xs ih =>
    intro ys
    cases ys with
    | nil => simp [Parquet.compareBytes]
    | cons y ys =>
      simp only [Parquet.compareBytes]
      cases hc : compare x y with
      | lt =>
        constructor
        · intro h; cases h
        · intro h
          have hx : x = y := (List.cons.injEq .. ▸ h).1
          exact absurd (compare_lt_iff_lt.mp (hx ▸ hc)) (lt_irrefl y)
      | eq =>
        have hx : x = y := compare_eq_iff_eq.mp hc
        simp [hx, ih]
      | gt =>
        constructor
        · intro h; cases h
        · intro h
          have hx : x = y := (List.cons.injEq .. ▸ h).1
          exact absurd (compare_gt_iff_gt.mp (hx ▸ hc)) (lt_irrefl y)

theorem Parquet.compareBytes_lt_iff : ∀ xs ys : List Nat,
    Parquet.compareBytes xs ys = .lt ↔ List.Lex (· < ·) xs ys := by
  intro xs
  induction xs with
  | nil =>
    intro ys
    cases ys with
    | nil =>
      constructor
      · intro h; cases h
      · intro h; cases h
    | cons y ys =>
      constructor
      · intro _; exact List.Lex.nil
      · intro _; rfl
  | cons x xs ih =>
    intro ys
    cases ys with
    | nil =>
      constructor
      · intro h; cases h
      · intro h; cases h
    | cons y ys =>
      simp only [Parquet.compareBytes]
      cases hc : compare x y with
      | lt =>
        constructor
        · intro _; exact List.Lex.rel (compare_lt_iff_lt.mp hc)
        · intro _; rfl
      | eq =>
        have hx : x = y := compare_eq_iff_eq.mp hc
        subst hx
        constructor
        · intro h; exact List.Lex.cons ((ih ys).mp h)
        · intro h
          cases h with
          | cons h' => exact (ih ys).mpr h'
          | rel h' => exact absurd h' (lt_irrefl x)
      | gt =>
        constructor
        · intro h; cases h
        · intro h
          have hyx : y < x := compare_gt_iff_gt.mp hc
          cases h with
          | cons h' => exact absurd rfl (ne_of_gt hyx)
          | rel h' => exact absurd h' (not_lt_of_gt hyx)

/-! ## Claims -/

/-- C10: `ByteArray::heap_size` is total over both logical states of the
value: it returns 0 for an unset `ByteArray` and the byte length of the
referenced buffer for a set one, while `len`, `is_empty` and `data()` on an
unset instance are contract violations that abort (modelled as `none`). -/
theorem C10_heap_size_total :
    Parquet.ByteArray.heap_size ⟨none⟩ = 0 ∧
    (∀ bs : List Nat, Parquet.ByteArray.heap_size ⟨some bs⟩ = bs.length) ∧
    Parquet.ByteArray.len ⟨none⟩ = none ∧
    Parquet.ByteArray.is_empty ⟨none⟩ = none ∧
    Parquet.ByteArray.get_data ⟨none⟩ = none ∧
    (∀ bs : List Nat, Parquet.ByteArray.len ⟨some bs⟩ = some bs.length) :=
  ⟨rfl, fun _ => rfl, rfl, rfl, rfl, fun _ => rfl⟩

/-- C8: ByteArray equality and ordering: an unset value equals an unset value
and sorts strictly before every set value (including a set zero-length
buffer); two set values are equal exactly when their byte contents are equal
and are otherwise ordered lexicographically (`List.Lex (· < ·)`); in
particular `[1,2,3] < [1,2,4]` and `[1,2,3] < [3,4]`. -/
theorem C8_byte_array_eq_ord :
    Parquet.ByteArray.eq ⟨none⟩ ⟨none⟩ = true ∧
    Parquet.ByteArray.partial_cmp ⟨none⟩ ⟨none⟩ = some .eq ∧
    (∀ bs : List Nat, Parquet.ByteArray.partial_cmp ⟨none⟩ ⟨some bs⟩ = some .lt ∧
      Parquet.ByteArray.eq ⟨none⟩ ⟨some bs⟩ = false) ∧
    (∀ xs ys : List Nat, (Parquet.ByteArray.eq ⟨some xs⟩ ⟨some ys⟩ = true ↔ xs = ys)) ∧
    (∀ xs ys : List Nat,
      (Parquet.ByteArray.partial_cmp ⟨some xs⟩ ⟨some ys⟩ = some .eq ↔ xs = ys)) ∧
    (∀ xs ys : List Nat,
      (Parquet.ByteArray.partial_cmp ⟨some xs⟩ ⟨some ys⟩ = some .lt ↔
        List.Lex (· < ·) xs ys)) ∧
    Parquet.ByteArray.partial_cmp ⟨some [1, 2, 3]⟩ ⟨some [1, 2, 4]⟩ = some .lt ∧
    Parquet.ByteArray.partial_cmp ⟨some [1, 2, 3]⟩ ⟨some [3, 4]⟩ = some .lt := by
  refine ⟨rfl, rfl, fun bs => ⟨rfl, rfl⟩, ?_, ?_, ?_, by decide, by decide⟩
  · intro xs ys
    simp [Parquet.ByteArray.eq]
  · intro xs ys
    simp only [Parquet.ByteArray.partial_cmp, Option.some_inj]
    exact Parquet.compareBytes_eq_iff xs ys
  · intro xs ys
    simp only [Parquet.ByteArray.partial_cmp, Option.some_inj]
    exact Parquet.compareBytes_lt_iff xs ys

/-- C6: Int96 epoch conversions: for every Int96 value (three u32 words),
`to_seconds` equals ((word 2 as a signed day) − 2,440,588) · 86,400 plus the
packed 64-bit nanos-in-day value divided by 10⁹ (truncating division), the
whole computed with silently wrapping i64 semantics (two's complement modulo
2⁶⁴); `to_millis`, `to_micros`, `to_nanos` are analogous with per-day counts
86,400,000 / 86,400,000,000 / 86,400,000,000,000 and divisors 10⁶ / 10³ / 1.
A day word of `i32::MAX` does not fail; the arithmetic wraps. -/
theorem C6_int96_epoch_conversions (v : Parquet.Int96)
    (h0 : v.value0 < 2 ^ 32) (h1 : v.value1 < 2 ^ 32) :
    v.to_seconds = Parquet.wrap64 ((Parquet.u32_to_i32 v.value2 - 2440588) * 86400 +
      Int.tdiv v.nanos_packed 1000000000) ∧
    v.to_millis = Parquet.wrap64 ((Parquet.u32_to_i32 v.value2 - 2440588) * 86400000 +
      Int.tdiv v.nanos_packed 1000000) ∧
    v.to_micros = Parquet.wrap64 ((Parquet.u32_to_i32 v.value2 - 2440588) * 86400000000 +
      Int.tdiv v.nanos_packed 1000) ∧
    v.to_nanos = Parquet.wrap64 ((Parquet.u32_to_i32 v.value2 - 2440588) * 86400000000000 +
      v.nanos_packed) := by
  have hn := Parquet.get_nanos_eq_packed v h0 h1
  refine ⟨?_, ?_, ?_, ?_⟩
  · rw [Parquet.Int96.to_seconds, hn, Parquet.wrap64_wrap_add]
    rfl
  · rw [Parquet.Int96.to_millis, hn, Parquet.wrap64_wrap_add]
    rfl
  · rw [Parquet.Int96.to_micros, hn, Parquet.wrap64_wrap_add]
    rfl
  · rw [Parquet.Int96.to_nanos, hn, Parquet.wrap64_wrap_add]
    rfl

/-- Witness for C6 at the day word `i32::MAX` (2147483647): the conversion
does not fail, it wraps. -/
theorem C6_witness :
    (Parquet.Int96.mk 0 0 2147483647).to_nanos =
      Parquet.wrap64 ((Parquet.u32_to_i32 2147483647 - 2440588) * 86400000000000 +
        (Parquet.Int96.mk 0 0 2147483647).nanos_packed) :=
  (C6_int96_epoch_conversions (Parquet.Int96.mk 0 0 2147483647)
    (by decide) (by decide)).2.2.2

/-- C7: Int96 ordering: `cmp` orders primarily by the Julian day word (word
index 2, read as i32) and, when the day words are equal, solely by the 64-bit
nanoseconds-within-day quantity packed little-endian across words 0 and 1
(word 1 high, word 0 low). -/
theorem C7_int96_ordering (a b : Parquet.Int96)
    (ha0 : a.value0 < 2 ^ 32) (ha1 : a.value1 < 2 ^ 32) (ha2 : a.value2 < 2 ^ 32)
    (hb0 : b.value0 < 2 ^ 32) (hb1 : b.value1 < 2 ^ 32) (hb2 : b.value2 < 2 ^ 32) :
    (a.value2 = b.value2 →
      Parquet.Int96.cmp a b = compare a.nanos_packed b.nanos_packed) ∧
    (a.value2 ≠ b.value2 →
      Parquet.Int96.cmp a b = compare a.get_days b.get_days ∧
      Parquet.Int96.cmp a b ≠ .eq) := by
  constructor
  · intro hday
    have hd : a.get_days = b.get_days := by
      simp [Parquet.Int96.get_days, hday]
    rw [Parquet.Int96.cmp, hd, compare_eq_iff_eq.mpr rfl,
      Parquet.get_nanos_eq_packed a ha0 ha1, Parquet.get_nanos_eq_packed b hb0 hb1]
  · intro hday
    have hd : a.get_days ≠ b.get_days := fun h =>
      hday (Parquet.u32_to_i32_inj ha2 hb2 h)
    rw [Parquet.Int96.cmp]
    cases hc : compare a.get_days b.get_days with
    | lt => exact ⟨rfl, by simp⟩
    | eq => exact absurd (compare_eq_iff_eq.mp hc) hd
    | gt => exact ⟨rfl, by simp⟩

/-- Witness for C7 at concrete values: equal day words 7 with nanos words
(1, 2) versus (3, 1). -/
theorem C7_witness :
    Parquet.Int96.cmp (Parquet.Int96.mk 1 2 7) (Parquet.Int96.mk 3 1 7) =
      compare (Parquet.Int96.mk 1 2 7).nanos_packed (Parquet.Int96.mk 3 1 7).nanos_packed :=
  (C7_int96_ordering (Parquet.Int96.mk 1 2 7) (Parquet.Int96.mk 3 1 7)
    (by decide) (by decide) (by decide) (by decide) (by decide) (by decide)).1 rfl

theorem Parquet.flba_decode_loop_ne_panic (data : List Nat) (len : Nat) :
    ∀ n start, Parquet.flba_decode_loop data len start n ≠ .panic := by
  intro n
  induction n with
  | zero =>
    intro start h
    cases h
  | succ n ih =>
    intro start h
    rw [Parquet.flba_decode_loop] at h
    split at h
    · cases h
    · revert h
      cases hrec : Parquet.flba_decode_loop data len (start + len) n with
      | ok vs fin => intro h; cases h
      | err e fin => intro h; cases h
      | panic => intro _; exact ih (start + len) hrec

theorem Parquet.flba_skip_loop_ne_panic (data : List Nat) (len : Nat) :
    ∀ n start, Parquet.flba_skip_loop data len start n ≠ .panic := by
  intro n
  induction n with
  | zero =>
    intro start h
    cases h
  | succ n ih =>
    intro start h
    rw [Parquet.flba_skip_loop] at h
    split at h
    · cases h
    · exact ih (start + len) h

/-- C9: `FixedLenByteArray::decode` and `FixedLenByteArray::skip` assert
`decoder.type_length > 0` on entry: when the cursor's configured element byte
length is zero or negative both calls panic (assertion failure) rather than
returning a recoverable error, and when it is positive the assertion never
fires — with a buffer set, neither call panics at all. -/
theorem C9_flba_type_length_assertion (decoder : Parquet.PlainDecoderDetails)
    (buffer_len num : Nat) :
    (decoder.type_length ≤ 0 →
      Parquet.FixedLenByteArray.decode buffer_len decoder = .panic ∧
      Parquet.FixedLenByteArray.skip decoder num = .panic) ∧
    (0 < decoder.type_length → ∀ d, decoder.data = some d →
      Parquet.FixedLenByteArray.decode buffer_len decoder ≠ .panic ∧
      Parquet.FixedLenByteArray.skip decoder num ≠ .panic) := by
  constructor
  · intro hle
    constructor
    · rw [Parquet.FixedLenByteArray.decode, if_pos hle]
    · rw [Parquet.FixedLenByteArray.skip, if_pos hle]
  · intro hpos d hd
    constructor
    · intro hpanic
      rw [Parquet.FixedLenByteArray.decode, if_neg (by omega), hd] at hpanic
      cases hrec : Parquet.flba_decode_loop d decoder.type_length.toNat decoder.start
          (min buffer_len decoder.num_values) with
      | ok vs fin => simp [hrec] at hpanic
      | err e fin => simp [hrec] at hpanic
      | panic => exact Parquet.flba_decode_loop_ne_panic d _ _ _ hrec
    · intro hpanic
      rw [Parquet.FixedLenByteArray.skip, if_neg (by omega), hd] at hpanic
      cases hrec : Parquet.flba_skip_loop d decoder.type_length.toNat decoder.start
          (min num decoder.num_values) with
      | ok u fin => simp [hrec] at hpanic
      | err e fin => simp [hrec] at hpanic
      | panic => exact Parquet.flba_skip_loop_ne_panic d _ _ _ hrec

/-- Witness for C9: a zero `type_length` makes both calls panic, and a
positive one with a set buffer panics in neither. -/
theorem C9_witness :
    (Parquet.FixedLenByteArray.decode 1
        ⟨some [1], 0, 1, 0, none⟩ = .panic ∧
      Parquet.FixedLenByteArray.skip ⟨some [1], 0, 1, 0, none⟩ 1 = .panic) ∧
    (Parquet.FixedLenByteArray.decode 1 ⟨some [1], 0, 1, 1, none⟩ ≠ .panic ∧
      Parquet.FixedLenByteArray.skip ⟨some [1], 0, 1, 1, none⟩ 1 ≠ .panic) :=
  ⟨(C9_flba_type_length_assertion ⟨some [1], 0, 1, 0, none⟩ 1 1).1 (by decide),
    (C9_flba_type_length_assertion ⟨some [1], 0, 1, 1, none⟩ 1 1).2 (by decide)
      [1] rfl⟩

theorem Variant.overflow_error_ne_oob (m : String) (s e l : Nat) :
    Variant.overflow_error m ≠ Variant.out_of_bounds_error s e l := by
  intro h
  simp only [Variant.overflow_error, Variant.out_of_bounds_error,
    Variant.ArrowError.invalidArgumentError.injEq] at h
  have h2 := congrArg String.data h
  simp only [String.data_append] at h2
  have h3 := congrArg List.head? h2
  simp [List.head?_append] at h3

/-- C4: whenever `base_offset + range.start` or `base_offset + range.end`
overflows the platform address width, `slice_from_slice_at_offset` returns the
overflow error — an error value distinct from every out-of-bounds error that
`slice_from_slice` can return for a non-overflowing range exceeding the buffer
— and the call is total (never panics). -/
theorem C4_slice_at_offset_overflow (bytes : List Nat) (base_offset rstart rstop : Nat)
    (hover : Variant.USIZE_MAX < base_offset + rstart ∨
      Variant.USIZE_MAX < base_offset + rstop) :
    ∃ m, Variant.slice_from_slice_at_offset bytes base_offset rstart rstop =
        .error (Variant.overflow_error m) ∧
      ∀ s e l, Variant.overflow_error m ≠ Variant.out_of_bounds_error s e l := by
  rw [Variant.slice_from_slice_at_offset]
  by_cases h1 : base_offset + rstart ≤ Variant.USIZE_MAX
  · have h2 : ¬ base_offset + rstop ≤ Variant.USIZE_MAX := by omega
    rw [Variant.checked_add, if_pos h1, Variant.checked_add, if_neg h2]
    exact ⟨"slice end", rfl, Variant.overflow_error_ne_oob "slice end"⟩
  · rw [Variant.checked_add, if_neg h1]
    exact ⟨"slice start", rfl, Variant.overflow_error_ne_oob "slice start"⟩

/-- Witness for C4: `base_offset = usize::MAX`, range `1..1` overflows and
yields the overflow error. -/
theorem C4_witness :
    ∃ m, Variant.slice_from_slice_at_offset [] Variant.USIZE_MAX 1 1 =
        .error (Variant.overflow_error m) ∧
      ∀ s e l, Variant.overflow_error m ≠ Variant.out_of_bounds_error s e l :=
  C4_slice_at_offset_overflow [] Variant.USIZE_MAX 1 1 (Or.inl (by omega))

theorem Variant.tbsrb_empty {K : Type} [LinearOrder K] (s : Nat) (target : K)
    (f : Nat → Option K) :
    Variant.try_binary_search_range_by s s target f = some (.error s) := by
  rw [Variant.try_binary_search_range_by.eq_def]
  simp

theorem Variant.tbsrb_none {K : Type} [LinearOrder K] (start stop : Nat) (target : K)
    (f : Nat → Option K) (hlt : start < stop)
    (hf : f (start + (stop - start) / 2) = none) :
    Variant.try_binary_search_range_by start stop target f = none := by
  rw [Variant.try_binary_search_range_by.eq_def, dif_pos hlt, hf]

theorem Variant.tbsrb_step {K : Type} [LinearOrder K] (start stop : Nat) (target : K)
    (f : Nat → Option K) (k : K) (hlt : start < stop)
    (hk : f (start + (stop - start) / 2) = some k) :
    Variant.try_binary_search_range_by start stop target f =
      if k = target then some (.ok (start + (stop - start) / 2))
      else if target < k then
        Variant.try_binary_search_range_by start (start + (stop - start) / 2) target f
      else
        Variant.try_binary_search_range_by (start + (stop - start) / 2 + 1) stop target f := by
  rw [Variant.try_binary_search_range_by.eq_def, dif_pos hlt, hk]

theorem Variant.tbsrb_ok_sound {K : Type} [LinearOrder K] :
    ∀ (fuel start stop : Nat), stop - start ≤ fuel →
      ∀ (target : K) (f : Nat → Option K) (i : Nat),
        Variant.try_binary_search_range_by start stop target f = some (.ok i) →
        start ≤ i ∧ i < stop ∧ f i = some target := by
  intro fuel
  induction fuel with
  | zero =>
    intro start stop hf target f i h
    rw [Variant.try_binary_search_range_by.eq_def, dif_neg (by omega)] at h
    simp at h
  | succ fuel ih =>
    intro start stop hf target f i h
    by_cases hlt : start < stop
    · have hdiv : (stop - start) / 2 < stop - start := Nat.div_lt_self (by omega) (by omega)
      cases hfm : f (start + (stop - start) / 2) with
      | none => rw [Variant.tbsrb_none start stop target f hlt hfm] at h; simp at h
      | some k =>
        rw [Variant.tbsrb_step start stop target f k hlt hfm] at h
        by_cases heq : k = target
        · rw [if_pos heq] at h
          simp only [Option.some_inj, Except.ok.injEq] at h
          subst h
          exact ⟨by omega, by omega, by rw [hfm, heq]⟩
        · rw [if_neg heq] at h
          by_cases hgt : target < k
          · rw [if_pos hgt] at h
            have := ih start (start + (stop - start) / 2) (by omega) target f i h
            exact ⟨this.1, by omega, this.2.2⟩
          · rw [if_neg hgt] at h
            have := ih (start + (stop - start) / 2 + 1) stop (by omega) target f i h
            exact ⟨by omega, this.2.1, this.2.2⟩
    · rw [Variant.try_binary_search_range_by.eq_def, dif_neg hlt] at h
      simp at h

theorem Variant.tbsrb_miss {K : Type} [LinearOrder K] :
    ∀ (fuel start stop : Nat), stop - start ≤ fuel →
      ∀ (target : K) (f : Nat → Option K),
        (∀ i, start ≤ i → i < stop → ∃ k, f i = some k ∧ k ≠ target) →
        ∃ j, Variant.try_binary_search_range_by start stop target f = some (.error j) := by
  intro fuel
  induction fuel with
  | zero =>
    intro start stop hf target f _
    rw [Variant.try_binary_search_range_by.eq_def, dif_neg (by omega)]
    exact ⟨start, rfl⟩
  | succ fuel ih =>
    intro start stop hf target f hmiss
    by_cases hlt : start < stop
    · have hdiv : (stop - start) / 2 < stop - start := Nat.div_lt_self (by omega) (by omega)
      obtain ⟨k, hk, hkne⟩ := hmiss (start + (stop - start) / 2) (by omega) (by omega)
      rw [Variant.tbsrb_step start stop target f k hlt hk, if_neg hkne]
      by_cases hgt : target < k
      · rw [if_pos hgt]
        exact ih start (start + (stop - start) / 2) (by omega) target f
          (fun i h1 h2 => hmiss i h1 (by omega))
      · rw [if_neg hgt]
        exact ih (start + (stop - start) / 2 + 1) stop (by omega) target f
          (fun i h1 h2 => hmiss i (by omega) h2)
    · rw [Variant.try_binary_search_range_by.eq_def, dif_neg hlt]
      exact ⟨start, rfl⟩

/-- C5: the fallible range binary search probes `start + (end - start) / 2`;
a `None` from the key extractor at a probed index aborts the whole search with
`None`; `Some(Ok(i))` is returned only with `i` a probed in-range index whose
key equals the target; when every in-range key exists and differs from the
target the result is `Some(Err(insertion_point))`; searching the empty range
`[0..0)` returns `Some(Err(0))` for every extractor (it is never called). -/
theorem C5_try_binary_search :
    (∀ (K : Type) [LinearOrder K] (target : K) (f : Nat → Option K),
      Variant.try_binary_search_range_by 0 0 target f = some (.error 0)) ∧
    (∀ (K : Type) [LinearOrder K] (start stop : Nat) (target : K) (f : Nat → Option K),
      start < stop → f (start + (stop - start) / 2) = none →
      Variant.try_binary_search_range_by start stop target f = none) ∧
    (∀ (K : Type) [LinearOrder K] (start stop : Nat) (target : K)
      (f : Nat → Option K) (i : Nat),
      Variant.try_binary_search_range_by start stop target f = some (.ok i) →
      start ≤ i ∧ i < stop ∧ f i = some target) ∧
    (∀ (K : Type) [LinearOrder K] (start stop : Nat) (target : K) (f : Nat → Option K),
      (∀ i, start ≤ i → i < stop → ∃ k, f i = some k ∧ k ≠ target) →
      ∃ j, Variant.try_binary_search_range_by start stop target f = some (.error j)) :=
  ⟨fun _ _ target f => Variant.tbsrb_empty 0 target f,
    fun _ _ start stop target f hlt hf => Variant.tbsrb_none start stop target f hlt hf,
    fun _ _ start stop target f i h =>
      Variant.tbsrb_ok_sound (stop - start) start stop le_rfl target f i h,
    fun _ _ start stop target f hmiss =>
      Variant.tbsrb_miss (stop - start) start stop le_rfl target f hmiss⟩

/-- Witness for C5 on concrete searches over `K = Int`. -/
theorem C5_witness :
    Variant.try_binary_search_range_by 0 0 (0 : Int) (fun _ => none) = some (.error 0) ∧
    Variant.try_binary_search_range_by 0 4 (0 : Int) (fun _ => none) = none ∧
    ((0 : Nat) ≤ 0 ∧ (0 : Nat) < 1 ∧ (fun _ => some (0 : Int)) 0 = some 0) ∧
    ∃ j, Variant.try_binary_search_range_by 0 2 (0 : Int) (fun _ => some 1) =
      some (.error j) :=
  ⟨C5_try_binary_search.1 Int 0 (fun _ => none),
    C5_try_binary_search.2.1 Int 0 4 0 (fun _ => none) (by omega) rfl,
    C5_try_binary_search.2.2.1 Int 0 1 0 (fun _ => some 0) 0
      (by rw [Variant.tbsrb_step 0 1 0 (fun _ => some 0) 0 (by omega) rfl]; simp),
    C5_try_binary_search.2.2.2 Int 0 2 0 (fun _ => some 1)
      (fun i _ _ => ⟨1, rfl, by decide⟩)⟩

theorem Parquet.decode_fixed_err {sz buffer_len : Nat}
    {decoder decoder' : Parquet.PlainDecoderDetails} {e : Parquet.ParquetError}
    (h : Parquet.decode_fixed sz buffer_len decoder = .err e decoder') :
    decoder' = decoder ∧ e = .eof "Not enough bytes to decode" := by
  simp only [Parquet.decode_fixed] at h
  split at h
  · cases h
  · split at h
    · cases h
    · split at h
      · cases h
        exact ⟨rfl, rfl⟩
      · cases h

theorem Parquet.skip_fixed_err {sz num : Nat}
    {decoder decoder' : Parquet.PlainDecoderDetails} {e : Parquet.ParquetError}
    (h : Parquet.skip_fixed sz decoder num = .err e decoder') :
    decoder' = decoder ∧ e = .eof "Not enough bytes to skip" := by
  simp only [Parquet.skip_fixed] at h
  split at h
  · cases h
  · split at h
    · cases h
    · split at h
      · cases h
        exact ⟨rfl, rfl⟩
      · cases h

theorem Parquet.int96_decode_err {buffer_len : Nat}
    {decoder decoder' : Parquet.PlainDecoderDetails} {e : Parquet.ParquetError}
    (h : Parquet.Int96.decode buffer_len decoder = .err e decoder') :
    decoder' = decoder ∧ e = .eof "Not enough bytes to decode" := by
  simp only [Parquet.Int96.decode] at h
  split at h
  · cases h
  · split at h
    · cases h
    · split at h
      · cases h
        exact ⟨rfl, rfl⟩
      · cases h

theorem Parquet.int96_skip_err {num : Nat}
    {decoder decoder' : Parquet.PlainDecoderDetails} {e : Parquet.ParquetError}
    (h : Parquet.Int96.skip decoder num = .err e decoder') :
    decoder' = decoder ∧ e = .eof "Not enough bytes to skip" := by
  simp only [Parquet.Int96.skip] at h
  split at h
  · cases h
  · split at h
    · cases h
    · split at h
      · cases h
        exact ⟨rfl, rfl⟩
      · cases h

theorem Parquet.byte_array_decode_loop_err (data : List Nat) :
    ∀ n start e fin, Parquet.byte_array_decode_loop data start n = .err e fin →
      e = Parquet.ParquetError.eof "Not enough bytes to decode" := by
  intro n
  induction n with
  | zero =>
    intro start e fin h
    cases h
  | succ n ih =>
    intro start e fin h
    simp only [Parquet.byte_array_decode_loop] at h
    split at h
    · cases h
    · split at h
      · cases h
      · split at h
        · cases h
          rfl
        · split at h
          · cases h
          · cases h
            rename_i heq
            exact ih _ _ _ heq
          · cases h

theorem Parquet.byte_array_skip_loop_ne_err (data : List Nat) :
    ∀ n start e fin, Parquet.byte_array_skip_loop data start n ≠ .err e fin := by
  intro n
  induction n with
  | zero =>
    intro start e fin h
    cases h
  | succ n ih =>
    intro start e fin h
    simp only [Parquet.byte_array_skip_loop] at h
    split at h
    · cases h
    · split at h
      · cases h
      · exact ih _ _ _ h

theorem Parquet.skip_loop_of_decode_loop (data : List Nat) :
    ∀ n start vs fin, Parquet.byte_array_decode_loop data start n = .ok vs fin →
      Parquet.byte_array_skip_loop data start n = .ok () fin := by
  intro n
  induction n with
  | zero =>
    intro start vs fin h
    cases h
    rfl
  | succ n ih =>
    intro start vs fin h
    simp only [Parquet.byte_array_decode_loop] at h
    split at h
    · cases h
    · split at h
      · cases h
      · split at h
        · cases h
        · split at h
          · cases h
            rename_i heq
            simp only [Parquet.byte_array_skip_loop]
            rw [if_neg (by assumption), if_neg (by assumption)]
            exact ih _ _ _ heq
          · cases h
          · cases h

theorem Parquet.flba_decode_loop_err (data : List Nat) (len : Nat) :
    ∀ n start e fin, Parquet.flba_decode_loop data len start n = .err e fin →
      e = Parquet.ParquetError.eof "Not enough bytes to decode" := by
  intro n
  induction n with
  | zero =>
    intro start e fin h
    cases h
  | succ n ih =>
    intro start e fin h
    simp only [Parquet.flba_decode_loop] at h
    split at h
    · cases h
      rfl
    · split at h
      · cases h
      · cases h
        rename_i heq
        exact ih _ _ _ heq
      · cases h

theorem Parquet.flba_skip_loop_err (data : List Nat) (len : Nat) :
    ∀ n start e fin, Parquet.flba_skip_loop data len start n = .err e fin →
      e = Parquet.ParquetError.eof "Not enough bytes to skip" := by
  intro n
  induction n with
  | zero =>
    intro start e fin h
    cases h
  | succ n ih =>
    intro start e fin h
    simp only [Parquet.flba_skip_loop] at h
    split at h
    · cases h
      rfl
    · exact ih _ _ _ h

theorem Parquet.byte_array_decode_err {buffer_len : Nat}
    {decoder decoder' : Parquet.PlainDecoderDetails} {e : Parquet.ParquetError}
    (h : Parquet.ByteArray.decode buffer_len decoder = .err e decoder') :
    decoder'.num_values = decoder.num_values ∧ decoder'.data = decoder.data ∧
      decoder'.bit_reader = decoder.bit_reader ∧
      e = .eof "Not enough bytes to decode" := by
  simp only [Parquet.ByteArray.decode] at h
  split at h
  · cases h
  · split at h
    · cases h
    · cases h
      rename_i heq
      exact ⟨rfl, rfl, rfl, Parquet.byte_array_decode_loop_err _ _ _ _ _ heq⟩
    · cases h

theorem Parquet.flba_decode_err {buffer_len : Nat}
    {decoder decoder' : Parquet.PlainDecoderDetails} {e : Parquet.ParquetError}
    (h : Parquet.FixedLenByteArray.decode buffer_len decoder = .err e decoder') :
    decoder'.num_values = decoder.num_values ∧ decoder'.data = decoder.data ∧
      decoder'.bit_reader = decoder.bit_reader ∧
      e = .eof "Not enough bytes to decode" := by
  simp only [Parquet.FixedLenByteArray.decode] at h
  split at h
  · cases h
  · split at h
    · cases h
    · split at h
      · cases h
      · cases h
        rename_i heq
        exact ⟨rfl, rfl, rfl, Parquet.flba_decode_loop_err _ _ _ _ _ _ heq⟩
      · cases h

theorem Parquet.flba_skip_err {num : Nat}
    {decoder decoder' : Parquet.PlainDecoderDetails} {e : Parquet.ParquetError}
    (h : Parquet.FixedLenByteArray.skip decoder num = .err e decoder') :
    decoder'.num_values = decoder.num_values ∧ decoder'.data = decoder.data ∧
      decoder'.bit_reader = decoder.bit_reader ∧
      e = .eof "Not enough bytes to skip" := by
  simp only [Parquet.FixedLenByteArray.skip] at h
  split at h
  · cases h
  · split at h
    · cases h
    · split at h
      · cases h
      · cases h
        rename_i heq
        exact ⟨rfl, rfl, rfl, Parquet.flba_skip_loop_err _ _ _ _ _ _ heq⟩
      · cases h

theorem Parquet.bool_decode_ne_err (buffer_len : Nat)
    (decoder decoder' : Parquet.PlainDecoderDetails) (e : Parquet.ParquetError) :
    Parquet.bool_decode buffer_len decoder ≠ .err e decoder' := by
  intro h
  simp only [Parquet.bool_decode] at h
  split at h
  · cases h
  · cases h

theorem Parquet.bool_skip_ne_err (num : Nat)
    (decoder decoder' : Parquet.PlainDecoderDetails) (e : Parquet.ParquetError) :
    Parquet.bool_skip decoder num ≠ .err e decoder' := by
  intro h
  simp only [Parquet.bool_skip] at h
  split at h
  · cases h
  · cases h

theorem Parquet.u64_to_i64_small {n : Nat} (h : n < 2 ^ 63) :
    Parquet.u64_to_i64 n = (n : Int) := by
  unfold Parquet.u64_to_i64
  rw [if_pos h]

theorem Parquet.vlb_lens_eq :
    ∀ values : List Parquet.ByteArray,
      (∀ v ∈ values, ∃ d, v.data = some d ∧ d.length < 2 ^ 63) →
      Parquet.vlb_lens values =
        some (values.map (fun v => ((v.data.getD []).length : Int))) := by
  intro values
  induction values with
  | nil => intro _; rfl
  | cons v vs ih =>
    intro hset
    obtain ⟨d, hd, hlen⟩ := hset v (List.mem_cons_self v vs)
    have hvs := ih (fun w hw => hset w (List.mem_cons_of_mem v hw))
    simp [Parquet.vlb_lens, hd, hvs, Parquet.u64_to_i64_small hlen]

/-- C3 counterexample: `FixedLenByteArray` does not override
`variable_length_bytes`, so a slice of FIXED_LEN_BYTE_ARRAY values yields
`None`, not `Some` of the summed per-value lengths (here `Some 3`). -/
theorem C3_counterexample :
    Parquet.FixedLenByteArray.variable_length_bytes [⟨⟨some [1, 2, 3]⟩⟩] = none ∧
    (none : Option Int) ≠ some 3 :=
  ⟨rfl, by decide⟩

/-- C3 (amended): `variable_length_bytes` returns `None` for every fixed-width
type (the trait default, regardless of the value type) and also for
`FixedLenByteArray`, which keeps the default; only `ByteArray` overrides it,
returning `Some` of the sum of the per-value byte lengths (provided every
value is set — `len()` panics on an unset value — and lengths fit in i64). -/
theorem C3_variable_length_bytes :
    (∀ (α : Type) (values : List α), Parquet.variable_length_bytes_default α values = none) ∧
    (∀ values : List Parquet.Int96, Parquet.Int96.variable_length_bytes values = none) ∧
    (∀ values : List Parquet.FixedLenByteArray,
      Parquet.FixedLenByteArray.variable_length_bytes values = none) ∧
    (∀ values : List Parquet.ByteArray,
      (∀ v ∈ values, ∃ d, v.data = some d ∧ d.length < 2 ^ 63) →
      Parquet.ByteArray.variable_length_bytes values =
        some (some ((values.map (fun v => ((v.data.getD []).length : Int))).sum))) := by
  refine ⟨fun _ _ => rfl, fun _ => rfl, fun _ => rfl, ?_⟩
  intro values hset
  rw [Parquet.ByteArray.variable_length_bytes, Parquet.vlb_lens_eq values hset]
  rfl

/-- Witness for C3 on a concrete set batch: lengths 2 and 0 sum to 2. -/
theorem C3_witness :
    Parquet.ByteArray.variable_length_bytes [⟨some [9, 9]⟩, ⟨some []⟩] =
      some (some (([⟨some [9, 9]⟩, ⟨some []⟩] : List Parquet.ByteArray).map
        (fun v => ((v.data.getD []).length : Int))).sum) :=
  C3_variable_length_bytes.2.2.2 [⟨some [9, 9]⟩, ⟨some []⟩]
    (by intro v hv
        cases hv with
        | head => exact ⟨[9, 9], rfl, by decide⟩
        | tail _ hv =>
          cases hv with
          | head => exact ⟨[], rfl, by decide⟩
          | tail _ hv => cases hv)

/-- C1 counterexample: `ByteArray::decode` on a cursor whose buffer holds only
the 4-byte length word `[5,0,0,0]` (announcing 5 value bytes that are absent)
fails with UnexpectedEof but leaves the cursor's start position at 4, not at
its pre-call value 0 — the cursor state is not restored on failure. -/
theorem C1_counterexample :
    Parquet.ByteArray.decode 1 ⟨some [5, 0, 0, 0], 0, 1, 0, none⟩ =
      .err (.eof "Not enough bytes to decode") ⟨some [5, 0, 0, 0], 4, 1, 0, none⟩ ∧
    (⟨some [5, 0, 0, 0], 4, 1, 0, none⟩ : Parquet.PlainDecoderDetails) ≠
      ⟨some [5, 0, 0, 0], 0, 1, 0, none⟩ :=
  ⟨by decide, by decide⟩

/-- C1 (amended): atomicity as claimed holds for the bulk-checked types: the
fixed-width scalars (i32/i64/f32/f64) and Int96 return UnexpectedEof with the
cursor left exactly as it was.  `bool` decode/skip never fail at all (they
read as many values as remain and return the count).  For `ByteArray` and
`FixedLenByteArray`, a mid-batch UnexpectedEof is returned before the
remaining-value count is decremented (buffer and bit-reader fields are also
untouched), but the start position keeps the advancement of the already
processed values — and, for ByteArray, of the failing value's length word. -/
theorem C1_decode_skip_atomicity :
    (∀ (sz buffer_len : Nat) (decoder decoder' : Parquet.PlainDecoderDetails) e,
      Parquet.decode_fixed sz buffer_len decoder = .err e decoder' →
      decoder' = decoder ∧ e = .eof "Not enough bytes to decode") ∧
    (∀ (sz num : Nat) (decoder decoder' : Parquet.PlainDecoderDetails) e,
      Parquet.skip_fixed sz decoder num = .err e decoder' →
      decoder' = decoder ∧ e = .eof "Not enough bytes to skip") ∧
    (∀ (buffer_len : Nat) (decoder decoder' : Parquet.PlainDecoderDetails) e,
      Parquet.Int96.decode buffer_len decoder = .err e decoder' →
      decoder' = decoder ∧ e = .eof "Not enough bytes to decode") ∧
    (∀ (num : Nat) (decoder decoder' : Parquet.PlainDecoderDetails) e,
      Parquet.Int96.skip decoder num = .err e decoder' →
      decoder' = decoder ∧ e = .eof "Not enough bytes to skip") ∧
    (∀ (buffer_len : Nat) (decoder decoder' : Parquet.PlainDecoderDetails) e,
      Parquet.ByteArray.decode buffer_len decoder = .err e decoder' →
      decoder'.num_values = decoder.num_values ∧ decoder'.data = decoder.data ∧
        decoder'.bit_reader = decoder.bit_reader ∧
        e = .eof "Not enough bytes to decode") ∧
    (∀ (buffer_len : Nat) (decoder decoder' : Parquet.PlainDecoderDetails) e,
      Parquet.FixedLenByteArray.decode buffer_len decoder = .err e decoder' →
      decoder'.num_values = decoder.num_values ∧ decoder'.data = decoder.data ∧
        decoder'.bit_reader = decoder.bit_reader ∧
        e = .eof "Not enough bytes to decode") ∧
    (∀ (num : Nat) (decoder decoder' : Parquet.PlainDecoderDetails) e,
      Parquet.FixedLenByteArray.skip decoder num = .err e decoder' →
      decoder'.num_values = decoder.num_values ∧ decoder'.data = decoder.data ∧
        decoder'.bit_reader = decoder.bit_reader ∧
        e = .eof "Not enough bytes to skip") ∧
    (∀ (buffer_len : Nat) (decoder decoder' : Parquet.PlainDecoderDetails) e,
      Parquet.bool_decode buffer_len decoder ≠ .err e decoder') ∧
    (∀ (num : Nat) (decoder decoder' : Parquet.PlainDecoderDetails) e,
      Parquet.bool_skip decoder num ≠ .err e decoder') :=
  ⟨fun _ _ _ _ _ h => Parquet.decode_fixed_err h,
    fun _ _ _ _ _ h => Parquet.skip_fixed_err h,
    fun _ _ _ _ h => Parquet.int96_decode_err h,
    fun _ _ _ _ h => Parquet.int96_skip_err h,
    fun _ _ _ _ h => Parquet.byte_array_decode_err h,
    fun _ _ _ _ h => Parquet.flba_decode_err h,
    fun _ _ _ _ h => Parquet.flba_skip_err h,
    fun _ decoder decoder' e => Parquet.bool_decode_ne_err _ decoder decoder' e,
    fun _ decoder decoder' e => Parquet.bool_skip_ne_err _ decoder decoder' e⟩

/-- Witness for C1 at concrete failing cursors for every conjunct. -/
theorem C1_witness :
    ((⟨some [0], 0, 1, 0, none⟩ : Parquet.PlainDecoderDetails) = ⟨some [0], 0, 1, 0, none⟩ ∧
      (Parquet.ParquetError.eof "Not enough bytes to decode") =
        .eof "Not enough bytes to decode") ∧
    ((⟨some [0], 0, 1, 0, none⟩ : Parquet.PlainDecoderDetails) = ⟨some [0], 0, 1, 0, none⟩ ∧
      (Parquet.ParquetError.eof "Not enough bytes to skip") =
        .eof "Not enough bytes to skip") ∧
    ((1 : Nat) = 1 ∧ (some [5, 0, 0, 0] : Option (List Nat)) = some [5, 0, 0, 0] ∧
      (none : Option Parquet.BitReader) = none ∧
      (Parquet.ParquetError.eof "Not enough bytes to decode") =
        .eof "Not enough bytes to decode") ∧
    Parquet.bool_decode 1 ⟨none, 0, 1, 0, some ⟨[], 0⟩⟩ ≠
      .err (.eof "x") ⟨none, 0, 1, 0, some ⟨[], 0⟩⟩ := by
  refine ⟨?_, ?_, ?_, ?_⟩
  · exact (C1_decode_skip_atomicity.1 4 1 ⟨some [0], 0, 1, 0, none⟩
      ⟨some [0], 0, 1, 0, none⟩ (.eof "Not enough bytes to decode") (by decide))
  · exact (C1_decode_skip_atomicity.2.1 4 1 ⟨some [0], 0, 1, 0, none⟩
      ⟨some [0], 0, 1, 0, none⟩ (.eof "Not enough bytes to skip") (by decide))
  · exact (C1_decode_skip_atomicity.2.2.2.2.1 1 ⟨some [5, 0, 0, 0], 0, 1, 0, none⟩
      ⟨some [5, 0, 0, 0], 4, 1, 0, none⟩ (.eof "Not enough bytes to decode") (by decide))
  · exact C1_decode_skip_atomicity.2.2.2.2.2.2.2.1 1 ⟨none, 0, 1, 0, some ⟨[], 0⟩⟩
      ⟨none, 0, 1, 0, some ⟨[], 0⟩⟩ (.eof "x")

/-- C2 counterexample: on the cursor whose buffer is just the length word
`[5,0,0,0]`, `decode` fails with UnexpectedEof while `skip` of the same one
value succeeds, advancing the start position to 9 — past the end of the
4-byte buffer: skip does not fail in the situations where decode fails. -/
theorem C2_counterexample :
    Parquet.ByteArray.decode 1 ⟨some [5, 0, 0, 0], 0, 1, 0, none⟩ =
      .err (.eof "Not enough bytes to decode") ⟨some [5, 0, 0, 0], 4, 1, 0, none⟩ ∧
    Parquet.ByteArray.skip ⟨some [5, 0, 0, 0], 0, 1, 0, none⟩ 1 =
      .ok 1 ⟨some [5, 0, 0, 0], 9, 0, 0, none⟩ :=
  ⟨by decide, by decide⟩

/-- C2 (amended): `ByteArray::skip` computes the same byte-length arithmetic
as `decode`: whenever `decode` of an `n`-value buffer succeeds, `skip` of `n`
values reaches exactly the same cursor state and returns the same count.  But
skip performs no EOF bounds check on the value bytes, so it never returns the
EOF error: where decode fails, skip either succeeds (possibly advancing the
start past the end of the buffer) or panics reading a length word that lies
outside the buffer. -/
theorem C2_skip_decode_equivalence :
    (∀ (n : Nat) (decoder decoder' : Parquet.PlainDecoderDetails) vs k,
      Parquet.ByteArray.decode n decoder = .ok (vs, k) decoder' →
      Parquet.ByteArray.skip decoder n = .ok k decoder') ∧
    (∀ (num : Nat) (decoder decoder' : Parquet.PlainDecoderDetails) e,
      Parquet.ByteArray.skip decoder num ≠ .err e decoder') := by
  constructor
  · intro n decoder decoder' vs k h
    cases hd : decoder.data with
    | none =>
      simp only [Parquet.ByteArray.decode, hd] at h
      cases h
    | some data =>
      simp only [Parquet.ByteArray.decode, hd] at h
      simp only [Parquet.ByteArray.skip, hd]
      split at h
      · cases h
        rename_i heq
        rw [Parquet.skip_loop_of_decode_loop _ _ _ _ _ heq]
      · cases h
      · cases h
  · intro num decoder decoder' e h
    simp only [Parquet.ByteArray.skip] at h
    split at h
    · cases h
    · split at h
      · cases h
      · cases h
        rename_i heq
        exact Parquet.byte_array_skip_loop_ne_err _ _ _ _ _ heq
      · cases h

/-- Witness for C2 on a concrete one-value buffer `[1,0,0,0,7]` where decode
succeeds: skip reaches the same cursor state. -/
theorem C2_witness :
    Parquet.ByteArray.skip ⟨some [1, 0, 0, 0, 7], 0, 1, 0, none⟩ 1 =
      .ok 1 ⟨some [1, 0, 0, 0, 7], 5, 0, 0, none⟩ ∧
    Parquet.ByteArray.skip ⟨some [5, 0, 0, 0], 0, 1, 0, none⟩ 1 ≠
      .err (.eof "Not enough bytes to decode") ⟨some [5, 0, 0, 0], 4, 1, 0, none⟩ :=
  ⟨C2_skip_decode_equivalence.1 1 ⟨some [1, 0, 0, 0, 7], 0, 1, 0, none⟩
      ⟨some [1, 0, 0, 0, 7], 5, 0, 0, none⟩ [[7]] 1 (by decide),
    C2_skip_decode_equivalence.2 1 ⟨some [5, 0, 0, 0], 0, 1, 0, none⟩
      ⟨some [5, 0, 0, 0], 4, 1, 0, none⟩ (.eof "Not enough bytes to decode")⟩
